import Mathlib

/-!
# wsPrism gateway core — shallow embedding and verification

This file embeds, in Lean 4, the parts of the wsPrism multi-tenant WebSocket
gateway relevant to its specification claims:

* the Hot (binary) lane frame decoder (`crates/wsprism-core/src/protocol/hot.rs`),
* the tenant policy runtime (`crates/wsprism-gateway/src/policy/engine.rs` and
  `policy/allowlist.rs`),
* the per-frame handling order of the connection loop
  (`crates/wsprism-gateway/src/transport/ws.rs`),
* the session registry (`crates/wsprism-gateway/src/realtime/core/session_registry.rs`),
* the presence registry (`crates/wsprism-gateway/src/realtime/core/presence.rs`).

Concurrent maps (`DashMap`, `DashSet`) are embedded as functions
`String → Option _` with duplicate-free lists standing for sets; atomics become
plain naturals under a sequential (linearized) execution model.  Token buckets
are time-dependent, so the outcome of an `allow()` call is passed in as a
boolean parameter that is consulted exactly where the source consults the
bucket.  Rust `u64`/`usize` values are naturals; wrap-around is modelled
explicitly only where a claim depends on it.
-/

namespace WsPrism

/-- Client-facing error codes, from `wsprism-core/src/error.rs` (`ClientCode`). -/
inductive ClientCode where
  | badRequest
  | authFailed
  | rateLimited
  | payloadTooLarge
  | notAllowed
  | unsupportedVersion
  | internal
deriving DecidableEq

/-- String form used in JSON responses, from `ClientCode::as_str`. -/
def ClientCode.as_str : ClientCode → String
  | .badRequest => "BAD_REQUEST"
  | .authFailed => "AUTH_FAILED"
  | .rateLimited => "RATE_LIMITED"
  | .payloadTooLarge => "PAYLOAD_TOO_LARGE"
  | .notAllowed => "NOT_ALLOWED"
  | .unsupportedVersion => "UNSUPPORTED_VERSION"
  | .internal => "INTERNAL"

/-- Unified error type, from `wsprism-core/src/error.rs` (`WsPrismError`).
Only the variants reached by the embedded code are included. -/
inductive WsErr where
  | badRequest (msg : String)
  | unsupportedVersion
  | resourceExhausted (msg : String)
deriving DecidableEq

/-! ## Hot (binary) lane frame decoding — `wsprism-core/src/protocol/hot.rs` -/

/-- Hot Lane flag bit: a little-endian u32 sequence number is present. -/
def HOT_FLAG_SEQ_PRESENT : Nat := 1

/-- Parsed Hot Lane frame (`HotFrame` in `hot.rs`).  Bytes are naturals
in `[0, 256)` on the wire; the decoder never produces anything else from a
byte list whose members are in that range. -/
structure HotFrame where
  v : Nat
  svc_id : Nat
  opcode : Nat
  flags : Nat
  seq : Option Nat
  payload : List Nat
deriving DecidableEq

/-- Little-endian u32 read, as done by `Buf::get_u32_le`. -/
def le32 (b0 b1 b2 b3 : Nat) : Nat :=
  b0 + 256 * b1 + 65536 * b2 + 16777216 * b3

/-- `decode_hot_frame` from `hot.rs`: 4-byte header `[v][svc_id][opcode][flags]`
with a remaining-length check before every read; optional LE u32 seq when
`flags & 0x01` is set; the remainder is the payload. -/
def decode_hot_frame : List Nat → Except WsErr HotFrame
  | v :: svc_id :: opcode :: flags :: rest =>
    if v ≠ 1 then
      .error .unsupportedVersion
    else if Nat.land flags HOT_FLAG_SEQ_PRESENT ≠ 0 then
      match rest with
      | b0 :: b1 :: b2 :: b3 :: payload =>
        .ok ⟨v, svc_id, opcode, flags, some (le32 b0 b1 b2 b3), payload⟩
      | _ => .error (.badRequest "seq flag set but missing u32")
    else
      .ok ⟨v, svc_id, opcode, flags, none, rest⟩
  | _ => .error (.badRequest "hot frame too short")

/-! ## Ext (text) lane envelope — `wsprism-core/src/protocol/text.rs`

The envelope is produced by a strict serde JSON parse.  The parse itself is an
external collaborator; the embedding starts from the parsed record.  The `v`
field has Rust type `u8`, so any value in `[0, 255]` deserializes; there is no
constraint tying it to `1`.  `data` is kept as the raw JSON text
(`Box<RawValue>` in the source). -/
structure Envelope where
  v : Nat
  svc : String
  msg_type : String
  flags : Nat
  seq : Option Nat
  room : Option String
  data : Option String
deriving DecidableEq

/-! ## Allowlists — `wsprism-gateway/src/policy/allowlist.rs` -/

/-- Compiled allowlist rule for the Ext lane (`ExtRule`); `none` is the
wildcard `svc:*`. -/
structure ExtRule where
  svc : String
  msg_type : Option String
deriving DecidableEq

/-- Compiled allowlist rule for the Hot lane (`HotRule`); `none` is the
wildcard `svc_id:*`. -/
structure HotRule where
  svc_id : Nat
  opcode : Option Nat
deriving DecidableEq

/-- `is_ext_allowed` from `allowlist.rs`: some rule matches `svc` exactly and
`msg_type` exactly or by wildcard. -/
def is_ext_allowed (rules : List ExtRule) (svc msg_type : String) : Bool :=
  rules.any fun r =>
    r.svc == svc && (match r.msg_type with
      | none => true
      | some t => t == msg_type)

/-- `is_hot_allowed` from `allowlist.rs`. -/
def is_hot_allowed (rules : List HotRule) (svc_id opcode : Nat) : Bool :=
  rules.any fun r =>
    r.svc_id == svc_id && (match r.opcode with
      | none => true
      | some op => op == opcode)

/-! ## Policy runtime — `wsprism-gateway/src/policy/engine.rs` -/

/-- Policy decision (`PolicyDecision` in `engine.rs`). -/
inductive PolicyDecision where
  | pass
  | drop
  | reject (code : ClientCode) (msg : String)
  | close (code : ClientCode) (msg : String)
deriving DecidableEq

/-- Rate-limit scope (`RateLimitScope` in `config/schema.rs`). -/
inductive RateLimitScope where
  | tenant
  | connection
  | both
deriving DecidableEq

/-- Hot lane error surface (`HotErrorMode` in `config/schema.rs`). -/
inductive HotErrorMode where
  | sysError
  | silent
deriving DecidableEq

/-- Tenant-scoped policy runtime (`TenantPolicyRuntime` in `engine.rs`),
restricted to the fields the per-frame checks read.  The token buckets
themselves are time-dependent state; each `allow()` call outcome is passed to
the checking functions as a boolean parameter. -/
structure TenantPolicyRuntime where
  tenant_id : String
  max_frame_bytes : Nat
  ext_rules : List ExtRule
  hot_rules : List HotRule
  rate_limit_scope : RateLimitScope
  hot_error_mode : HotErrorMode
  hot_requires_active_room : Bool

/-- Whether `tenant_limiter` is `Some` — built by `TenantPolicyRuntime::new`
exactly for scopes `Tenant` and `Both`. -/
def TenantPolicyRuntime.hasTenantLimiter (p : TenantPolicyRuntime) : Bool :=
  match p.rate_limit_scope with
  | .tenant => true
  | .both => true
  | .connection => false

/-- Whether `new_connection_limiter` returns `Some` — scopes `Connection` and
`Both`. -/
def TenantPolicyRuntime.hasConnLimiter (p : TenantPolicyRuntime) : Bool :=
  match p.rate_limit_scope with
  | .connection => true
  | .both => true
  | .tenant => false

/-- `check_len` from `engine.rs`. -/
def check_len (p : TenantPolicyRuntime) (bytes_len : Nat) : PolicyDecision :=
  if p.max_frame_bytes < bytes_len then
    .close .badRequest "frame too large"
  else
    .pass

/-- `check_text` from `engine.rs`.  `tenantAllow` is the outcome of the
tenant-level bucket's `allow()`; it is consulted only when the tenant limiter
exists, exactly as in the source. -/
def check_text (p : TenantPolicyRuntime) (tenantAllow : Bool) (bytes_len : Nat)
    (svc msg_type : String) : PolicyDecision :=
  match check_len p bytes_len with
  | .pass =>
    if p.hasTenantLimiter && !tenantAllow then
      .drop
    else if p.ext_rules.isEmpty then
      .reject .badRequest "ext_allowlist empty (strict deny)"
    else if !(is_ext_allowed p.ext_rules svc msg_type) then
      .reject .badRequest "svc/type not allowed"
    else
      .pass
  | other => other

/-- `check_hot` from `engine.rs`. -/
def check_hot (p : TenantPolicyRuntime) (tenantAllow : Bool) (bytes_len : Nat)
    (svc_id opcode : Nat) : PolicyDecision :=
  match check_len p bytes_len with
  | .pass =>
    if p.hasTenantLimiter && !tenantAllow then
      .drop
    else if p.hot_rules.isEmpty then
      .drop
    else if !(is_hot_allowed p.hot_rules svc_id opcode) then
      .drop
    else
      .pass
  | other => other

/-! ## Per-frame handling in the connection loop — `transport/ws.rs`

`run_session`'s steady-state loop handles one decoded inbound frame at a time.
The embedding below captures the policy-and-routing phase of one iteration for
each lane, ending either in a silent `continue`, a `sys.error` followed by
`continue`, a `sys.error` followed by `break`, a silent `break`, or the frame
being handed on (room short-path or dispatcher). -/

/-- Outcome of handling one Ext (text) frame in `run_session`
(`ws.rs` lines 198–256, up to the dispatch decision). -/
inductive ExtOutcome where
  | continueSilent
  | continueError (code : ClientCode) (msg : String)
  | closeError (code : ClientCode) (msg : String)
  | dispatched (env : Envelope)
deriving DecidableEq

/-- Outcome of handling one Hot (binary) frame in `run_session`
(`ws.rs` lines 257–302, up to the dispatch decision). -/
inductive HotOutcome where
  | continueSilent
  | continueError (code : ClientCode) (msg : String)
  | closeError (code : ClientCode) (msg : String)
  | closeSilent
  | dispatched (frame : HotFrame)
deriving DecidableEq

/-- Ext lane handling from `run_session`: the per-connection limiter (when
configured) is consulted first (`sess.conn_limiter`, `ws.rs` 199–204), then
`check_text`; `Pass` reaches the room short-path or the dispatcher with the
envelope unchanged, `Drop` is a silent `continue`, `Reject` sends `sys.error`
and continues, `Close` sends `sys.error` and breaks the loop.  `connAllow` and
`tenantAllow` are the respective buckets' `allow()` outcomes. -/
def handle_text_frame (p : TenantPolicyRuntime) (connAllow tenantAllow : Bool)
    (env : Envelope) (bytes_len : Nat) : ExtOutcome :=
  if p.hasConnLimiter && !connAllow then
    .continueSilent
  else
    match check_text p tenantAllow bytes_len env.svc env.msg_type with
    | .pass => .dispatched env
    | .drop => .continueSilent
    | .reject code msg => .continueError code msg
    | .close code msg => .closeError code msg

/-- Hot lane handling from `run_session`: `check_hot` only (no per-connection
limiter on this lane), then the `hot_requires_active_room` gate; `Reject` and
`Close` surface `sys.error` only in `HotErrorMode::SysError`. -/
def handle_hot_frame (p : TenantPolicyRuntime) (tenantAllow : Bool)
    (hasActiveRoom : Bool) (frame : HotFrame) (bytes_len : Nat) : HotOutcome :=
  match check_hot p tenantAllow bytes_len frame.svc_id frame.opcode with
  | .pass =>
    if p.hot_requires_active_room && !hasActiveRoom then
      match p.hot_error_mode with
      | .sysError => .continueError .badRequest "no active room"
      | .silent => .continueSilent
    else
      .dispatched frame
  | .drop => .continueSilent
  | .reject code msg =>
    match p.hot_error_mode with
    | .sysError => .continueError code msg
    | .silent => .continueSilent
  | .close code msg =>
    match p.hot_error_mode with
    | .sysError => .closeError code msg
    | .silent => .closeSilent

/-! ## Decode-once codec — `wsprism-gateway/src/transport/codec.rs` -/

/-- Decoded inbound frame (`Inbound` in `codec.rs`). -/
inductive Inbound where
  | text (env : Envelope) (bytes_len : Nat)
  | hot (frame : HotFrame) (bytes_len : Nat)
  | ping (payload : List Nat)
  | pong (payload : List Nat)
  | close
deriving DecidableEq

/-- Text branch of `decode` in `codec.rs`: after the strict serde parse (an
external collaborator that yields the `Envelope` record), the codec wraps the
envelope as-is — it applies no further check, in particular none on `env.v`. -/
def decode_text (env : Envelope) (bytes_len : Nat) : Except WsErr Inbound :=
  .ok (.text env bytes_len)

/-- Binary branch of `decode` in `codec.rs`: `decode_hot_frame` on the bytes,
with `bytes_len` the wire byte count. -/
def decode_binary (b : List Nat) : Except WsErr Inbound :=
  match decode_hot_frame b with
  | .ok frame => .ok (.hot frame b.length)
  | .error e => .error e

/-! ## Session id selection — `transport/ws.rs` lines 35 and 118–127 -/

/-- `gen_sid` from `ws.rs`: lowercase hex of the next value of a process-wide
counter (`format!("\x7b:x\x7d", NEXT_SID.fetch_add(1, ..))`); `counter` is the
fetched value. -/
def gen_sid (counter : Nat) : String :=
  String.mk (Nat.toDigits 16 counter)

/-- Session id used by `run_session` (`ws.rs` line 121):
`q.sid.unwrap_or_else(gen_sid)`. -/
def sid_for (qsid : Option String) (counter : Nat) : String :=
  qsid.getD (gen_sid counter)

/-- Session key formation (`ws.rs` line 127). -/
def session_key_of (tenant user_id sid : String) : String :=
  tenant ++ "::" ++ user_id ++ "::" ++ sid

end WsPrism

namespace WsPrism

/-! ## Claim C2 — `decode_hot_frame` behavior -/

/-- C2: `decode_hot_frame` is total (a Lean function on all byte lists) and:
fewer than 4 bytes ⇒ `BadRequest`; byte 0 ≠ 1 ⇒ `UnsupportedVersion`;
flags bit 0x01 set with fewer than 4 bytes after the header ⇒ `BadRequest`;
otherwise a frame whose `svc_id`, `opcode`, `flags` are bytes 1–3, whose `seq`
is the little-endian u32 after the header exactly when the flag is set, and
whose payload is exactly the remaining bytes. -/
theorem decode_hot_frame_spec (buf : List Nat) :
    (buf.length < 4 → decode_hot_frame buf = .error (.badRequest "hot frame too short"))
    ∧ ∀ v s o f rest, buf = v :: s :: o :: f :: rest →
        (v ≠ 1 → decode_hot_frame buf = .error .unsupportedVersion)
        ∧ (v = 1 → Nat.land f HOT_FLAG_SEQ_PRESENT = 0 →
            decode_hot_frame buf = .ok ⟨1, s, o, f, none, rest⟩)
        ∧ (v = 1 → Nat.land f HOT_FLAG_SEQ_PRESENT ≠ 0 → rest.length < 4 →
            decode_hot_frame buf = .error (.badRequest "seq flag set but missing u32"))
        ∧ (v = 1 → Nat.land f HOT_FLAG_SEQ_PRESENT ≠ 0 →
            ∀ b0 b1 b2 b3 payload, rest = b0 :: b1 :: b2 :: b3 :: payload →
              decode_hot_frame buf = .ok ⟨1, s, o, f, some (le32 b0 b1 b2 b3), payload⟩) := by
  constructor
  · intro hlen
    match buf with
    | [] => rfl
    | [_] => rfl
    | [_, _] => rfl
    | [_, _, _] => rfl
    | _ :: _ :: _ :: _ :: _ => simp at hlen; omega
  · intro v s o f rest hbuf
    subst hbuf
    refine ⟨?_, ?_, ?_, ?_⟩
    · intro hv
      simp [decode_hot_frame, hv]
    · intro hv hflag
      simp [decode_hot_frame, hv, hflag]
    · intro hv hflag hlen
      match rest with
      | [] => simp [decode_hot_frame, hv, hflag]
      | [_] => simp [decode_hot_frame, hv, hflag]
      | [_, _] => simp [decode_hot_frame, hv, hflag]
      | [_, _, _] => simp [decode_hot_frame, hv, hflag]
      | _ :: _ :: _ :: _ :: _ => simp at hlen; omega
    · intro hv hflag b0 b1 b2 b3 payload hrest
      subst hrest
      simp [decode_hot_frame, hv, hflag]

/-- C2 witness: the theorem applied at concrete byte strings (the S4 test
vector and a wrong-version header). -/
theorem decode_hot_frame_spec_witness :
    decode_hot_frame [1, 1, 42, 1, 4, 0, 0, 0, 112, 105, 110, 103]
      = .ok ⟨1, 1, 42, 1, some 4, [112, 105, 110, 103]⟩
    ∧ decode_hot_frame [2, 0, 0, 0] = .error .unsupportedVersion
    ∧ decode_hot_frame [1, 0] = .error (.badRequest "hot frame too short")
    ∧ decode_hot_frame [1, 0, 0, 1, 9] = .error (.badRequest "seq flag set but missing u32") := by
  refine ⟨?_, ?_, ?_, ?_⟩
  · have h := ((decode_hot_frame_spec [1, 1, 42, 1, 4, 0, 0, 0, 112, 105, 110, 103]).2
      1 1 42 1 [4, 0, 0, 0, 112, 105, 110, 103] rfl).2.2.2 rfl (by decide)
      4 0 0 0 [112, 105, 110, 103] rfl
    simpa [le32] using h
  · exact ((decode_hot_frame_spec [2, 0, 0, 0]).2 2 0 0 0 [] rfl).1 (by decide)
  · exact (decode_hot_frame_spec [1, 0]).1 (by decide)
  · exact ((decode_hot_frame_spec [1, 0, 0, 1, 9]).2 1 0 0 1 [9] rfl).2.2.1 rfl (by decide) (by decide)

/-! ## Claim C1 — order of policy checks per inbound frame -/

/-- A tenant policy with connection-scope rate limiting, used to exhibit the
check-order divergence on the Ext lane. -/
def pConn : TenantPolicyRuntime :=
  { tenant_id := "acme"
    max_frame_bytes := 4096
    ext_rules := [⟨"room", some "join"⟩]
    hot_rules := [⟨1, none⟩]
    rate_limit_scope := .connection
    hot_error_mode := .sysError
    hot_requires_active_room := true }

/-- A small well-formed Ext envelope. -/
def envJoin : Envelope :=
  { v := 1, svc := "room", msg_type := "join", flags := 0, seq := none
    room := some "party", data := none }

/-- C1 counterexample: the claim says the frame-length limit is checked
strictly before any rate-limit check, including the per-connection bucket, so
an over-length frame would always produce `Close(BadRequest, "frame too
large")`.  On the Ext lane the connection loop consults the per-connection
bucket first (`ws.rs` 199–204) and only then calls `check_text`: with the
per-connection bucket empty, a 5000-byte frame against `max_frame_bytes =
4096` is silently dropped instead. -/
theorem policy_order_cex :
    pConn.max_frame_bytes < 5000
    ∧ handle_text_frame pConn false true envJoin 5000 = .continueSilent
    ∧ ExtOutcome.continueSilent ≠ .closeError .badRequest "frame too large" := by
  refine ⟨by decide, by decide, by decide⟩

/-- C1 amended: on the Ext lane the per-connection bucket (when connection
scope is configured) is consulted strictly before everything else, including
the frame-length limit; after it, length is checked strictly before the
tenant-wide rate limit, the tenant rate limit strictly before the allowlist,
and the allowlist strictly before dispatch.  On the Hot lane the
per-connection bucket is never consulted; length is checked strictly before
the tenant rate limit, the rate limit strictly before the allowlist, and the
allowlist strictly before dispatch (with the active-room gate after the
allowlist). -/
theorem policy_order_amended :
    (∀ (p : TenantPolicyRuntime) (env : Envelope) (blen : Nat) (tAllow : Bool),
      p.hasConnLimiter = true →
      handle_text_frame p false tAllow env blen = .continueSilent)
    ∧ (∀ (p : TenantPolicyRuntime) (env : Envelope) (blen : Nat) (cAllow tAllow : Bool),
      (p.hasConnLimiter = true → cAllow = true) →
      p.max_frame_bytes < blen →
      handle_text_frame p cAllow tAllow env blen = .closeError .badRequest "frame too large")
    ∧ (∀ (p : TenantPolicyRuntime) (env : Envelope) (blen : Nat) (cAllow : Bool),
      (p.hasConnLimiter = true → cAllow = true) →
      blen ≤ p.max_frame_bytes →
      p.hasTenantLimiter = true →
      handle_text_frame p cAllow false env blen = .continueSilent)
    ∧ (∀ (p : TenantPolicyRuntime) (env : Envelope) (blen : Nat) (cAllow tAllow : Bool),
      handle_text_frame p cAllow tAllow env blen = .dispatched env ↔
        ((p.hasConnLimiter = true → cAllow = true)
          ∧ blen ≤ p.max_frame_bytes
          ∧ (p.hasTenantLimiter = true → tAllow = true)
          ∧ is_ext_allowed p.ext_rules env.svc env.msg_type = true))
    ∧ (∀ (p : TenantPolicyRuntime) (f : HotFrame) (blen : Nat) (tAllow room : Bool),
      p.max_frame_bytes < blen →
      handle_hot_frame p tAllow room f blen =
        (match p.hot_error_mode with
          | .sysError => .closeError .badRequest "frame too large"
          | .silent => .closeSilent))
    ∧ (∀ (p : TenantPolicyRuntime) (f : HotFrame) (blen : Nat) (room : Bool),
      blen ≤ p.max_frame_bytes →
      p.hasTenantLimiter = true →
      handle_hot_frame p false room f blen = .continueSilent)
    ∧ (∀ (p : TenantPolicyRuntime) (f : HotFrame) (blen : Nat) (tAllow room : Bool),
      handle_hot_frame p tAllow room f blen = .dispatched f ↔
        (blen ≤ p.max_frame_bytes
          ∧ (p.hasTenantLimiter = true → tAllow = true)
          ∧ is_hot_allowed p.hot_rules f.svc_id f.opcode = true
          ∧ (p.hot_requires_active_room = true → room = true))) := by
  refine ⟨?_, ?_, ?_, ?_, ?_, ?_, ?_⟩
  · intro p env blen tAllow hconn
    simp [handle_text_frame, hconn]
  · intro p env blen cAllow tAllow hconn hlen
    have hc : (p.hasConnLimiter && !cAllow) = false := by
      cases hx : p.hasConnLimiter with
      | false => simp
      | true => simp [hconn hx]
    simp [handle_text_frame, hc, check_text, check_len, hlen]
  · intro p env blen cAllow hconn hlen hlim
    have hc : (p.hasConnLimiter && !cAllow) = false := by
      cases hx : p.hasConnLimiter with
      | false => simp
      | true => simp [hconn hx]
    simp [handle_text_frame, hc, check_text, check_len, Nat.not_lt.mpr hlen, hlim]
  · intro p env blen cAllow tAllow
    constructor
    · intro h
      by_cases hc : (p.hasConnLimiter && !cAllow) = true
      · simp [handle_text_frame, hc] at h
      · rw [Bool.not_eq_true] at hc
        simp only [handle_text_frame, hc, Bool.false_eq_true, if_false] at h
        by_cases hlen : blen ≤ p.max_frame_bytes
        · by_cases hlim : (p.hasTenantLimiter && !tAllow) = true
          · simp [check_text, check_len, Nat.not_lt.mpr hlen, hlim] at h
          · rw [Bool.not_eq_true] at hlim
            by_cases hemp : p.ext_rules.isEmpty
            · simp [check_text, check_len, Nat.not_lt.mpr hlen, hlim, hemp] at h
            · by_cases hall : is_ext_allowed p.ext_rules env.svc env.msg_type = true
              · refine ⟨?_, hlen, ?_, hall⟩
                · intro hx
                  cases cAllow with
                  | true => rfl
                  | false => rw [hx] at hc; simp at hc
                · intro hx
                  cases tAllow with
                  | true => rfl
                  | false => rw [hx] at hlim; simp at hlim
              · simp [check_text, check_len, Nat.not_lt.mpr hlen, hlim, hemp, hall] at h
        · simp [check_text, check_len, Nat.lt_of_not_le hlen] at h
    · rintro ⟨hconn, hlen, hlim, hall⟩
      have hc : (p.hasConnLimiter && !cAllow) = false := by
        cases hx : p.hasConnLimiter with
        | false => simp
        | true => simp [hconn hx]
      have hl : (p.hasTenantLimiter && !tAllow) = false := by
        cases hx : p.hasTenantLimiter with
        | false => simp
        | true => simp [hlim hx]
      have hemp : p.ext_rules.isEmpty = false := by
        cases hr : p.ext_rules with
        | nil => rw [hr] at hall; simp [is_ext_allowed] at hall
        | cons a l => simp
      simp [handle_text_frame, hc, check_text, check_len, Nat.not_lt.mpr hlen, hl, hemp, hall]
  · intro p f blen tAllow room hlen
    cases hm : p.hot_error_mode with
    | sysError => simp [handle_hot_frame, check_hot, check_len, hlen, hm]
    | silent => simp [handle_hot_frame, check_hot, check_len, hlen, hm]
  · intro p f blen room hlen hlim
    simp [handle_hot_frame, check_hot, check_len, Nat.not_lt.mpr hlen, hlim]
  · intro p f blen tAllow room
    constructor
    · intro h
      by_cases hlen : blen ≤ p.max_frame_bytes
      · by_cases hlim : (p.hasTenantLimiter && !tAllow) = true
        · simp [handle_hot_frame, check_hot, check_len, Nat.not_lt.mpr hlen, hlim] at h
        · rw [Bool.not_eq_true] at hlim
          by_cases hemp : p.hot_rules.isEmpty
          · simp [handle_hot_frame, check_hot, check_len, Nat.not_lt.mpr hlen, hlim, hemp] at h
          · by_cases hall : is_hot_allowed p.hot_rules f.svc_id f.opcode = true
            · by_cases hroom : (p.hot_requires_active_room && !room) = true
              · cases hm : p.hot_error_mode with
                | sysError =>
                  simp [handle_hot_frame, check_hot, check_len, Nat.not_lt.mpr hlen,
                    hlim, hemp, hall, hroom, hm] at h
                | silent =>
                  simp [handle_hot_frame, check_hot, check_len, Nat.not_lt.mpr hlen,
                    hlim, hemp, hall, hroom, hm] at h
              · rw [Bool.not_eq_true] at hroom
                refine ⟨hlen, ?_, hall, ?_⟩
                · intro hx
                  cases tAllow with
                  | true => rfl
                  | false => rw [hx] at hlim; simp at hlim
                · intro hx
                  cases room with
                  | true => rfl
                  | false => rw [hx] at hroom; simp at hroom
            · simp [handle_hot_frame, check_hot, check_len, Nat.not_lt.mpr hlen,
                hlim, hemp, hall] at h
      · cases hm : p.hot_error_mode with
        | sysError => simp [handle_hot_frame, check_hot, check_len, Nat.lt_of_not_le hlen, hm] at h
        | silent => simp [handle_hot_frame, check_hot, check_len, Nat.lt_of_not_le hlen, hm] at h
    · rintro ⟨hlen, hlim, hall, hroom⟩
      have hl : (p.hasTenantLimiter && !tAllow) = false := by
        cases hx : p.hasTenantLimiter with
        | false => simp
        | true => simp [hlim hx]
      have hr : (p.hot_requires_active_room && !room) = false := by
        cases hx : p.hot_requires_active_room with
        | false => simp
        | true => simp [hroom hx]
      have hemp : p.hot_rules.isEmpty = false := by
        cases hx : p.hot_rules with
        | nil => rw [hx] at hall; simp [is_hot_allowed] at hall
        | cons a l => simp
      simp [handle_hot_frame, check_hot, check_len, Nat.not_lt.mpr hlen, hl, hemp, hall, hr]

/-- C1 amended witness: amended order facts at concrete inputs — a depleted
per-connection bucket silently drops an over-length Ext frame, and with the
bucket full the over-length frame is closed with "frame too large". -/
theorem policy_order_amended_witness :
    handle_text_frame pConn false true envJoin 5000 = .continueSilent
    ∧ handle_text_frame pConn true true envJoin 5000
        = .closeError .badRequest "frame too large" :=
  ⟨policy_order_amended.1 pConn envJoin 5000 true (by decide),
   policy_order_amended.2.1 pConn envJoin 5000 true true (fun _ => rfl) (by decide)⟩

/-! ## Claim C3 — strict deny on empty allowlists -/

/-- C3: for any frame that passes the length check and the rate checks, an
empty Ext allowlist makes `check_text` return `Reject` with code `BAD_REQUEST`
and message "ext_allowlist empty (strict deny)", and the connection loop
answers with a `sys.error` and continues (the connection stays open:
`continueError`, not `closeError`); an empty Hot allowlist makes `check_hot`
return `Drop` and the loop silently continues. -/
theorem empty_allowlist_strict_deny (p : TenantPolicyRuntime) (cAllow tAllow : Bool)
    (env : Envelope) (f : HotFrame) (blen : Nat) (room : Bool)
    (hlen : blen ≤ p.max_frame_bytes)
    (hconn : p.hasConnLimiter = true → cAllow = true)
    (hrate : p.hasTenantLimiter = true → tAllow = true) :
    (p.ext_rules = [] →
      check_text p tAllow blen env.svc env.msg_type
        = .reject .badRequest "ext_allowlist empty (strict deny)"
      ∧ handle_text_frame p cAllow tAllow env blen
        = .continueError .badRequest "ext_allowlist empty (strict deny)")
    ∧ (p.hot_rules = [] →
      check_hot p tAllow blen f.svc_id f.opcode = .drop
      ∧ handle_hot_frame p tAllow room f blen = .continueSilent) := by
  have hl : (p.hasTenantLimiter && !tAllow) = false := by
    cases hx : p.hasTenantLimiter with
    | false => simp
    | true => simp [hrate hx]
  have hc : (p.hasConnLimiter && !cAllow) = false := by
    cases hx : p.hasConnLimiter with
    | false => simp
    | true => simp [hconn hx]
  constructor
  · intro hemp
    constructor
    · simp [check_text, check_len, Nat.not_lt.mpr hlen, hl, hemp]
    · simp [handle_text_frame, hc, check_text, check_len, Nat.not_lt.mpr hlen, hl, hemp]
  · intro hemp
    constructor
    · simp [check_hot, check_len, Nat.not_lt.mpr hlen, hl, hemp]
    · simp [handle_hot_frame, check_hot, check_len, Nat.not_lt.mpr hlen, hl, hemp]

/-- A strict-deny tenant policy: both allowlists empty (scenario S1). -/
def pStrict : TenantPolicyRuntime :=
  { tenant_id := "acme"
    max_frame_bytes := 4096
    ext_rules := []
    hot_rules := []
    rate_limit_scope := .connection
    hot_error_mode := .silent
    hot_requires_active_room := false }

/-- C3 witness: scenario S1 — a 60-byte chat message against empty allowlists
is rejected with the strict-deny message while the connection stays open, and
a hot frame is silently dropped. -/
theorem empty_allowlist_strict_deny_witness :
    check_text pStrict true 60 "chat" "send"
      = .reject .badRequest "ext_allowlist empty (strict deny)"
    ∧ handle_text_frame pStrict true true ⟨1, "chat", "send", 0, none, some "r", some "hi"⟩ 60
      = .continueError .badRequest "ext_allowlist empty (strict deny)"
    ∧ check_hot pStrict true 8 1 2 = .drop
    ∧ handle_hot_frame pStrict true false ⟨1, 1, 2, 0, none, []⟩ 8 = .continueSilent := by
  have h := empty_allowlist_strict_deny pStrict true true
    ⟨1, "chat", "send", 0, none, some "r", some "hi"⟩ ⟨1, 1, 2, 0, none, []⟩ 60 false
    (by decide) (fun _ => rfl) (fun _ => rfl)
  have h2 := empty_allowlist_strict_deny pStrict true true
    ⟨1, "chat", "send", 0, none, some "r", some "hi"⟩ ⟨1, 1, 2, 0, none, []⟩ 8 false
    (by decide) (fun _ => rfl) (fun _ => rfl)
  exact ⟨(h.1 rfl).1, (h.1 rfl).2, (h2.2 rfl).1, (h2.2 rfl).2⟩

/-! ## Claim C9 — no protocol-version validation on the Ext lane -/

/-- C9: the Ext (text) lane never validates the envelope's protocol version:
the codec hands any parsed envelope on unchanged (the serde field is a `u8`,
so every `v` in 0–255 parses), the per-frame handling is oblivious to `v`
(changing `v` changes nothing but the `v` field of the dispatched envelope,
and a dispatched envelope is the input envelope itself), while the Hot lane
rejects every version other than 1. -/
theorem ext_lane_ignores_version :
    (∀ (env : Envelope) (blen : Nat), decode_text env blen = .ok (.text env blen))
    ∧ (∀ (p : TenantPolicyRuntime) (cAllow tAllow : Bool) (env : Envelope)
        (blen x : Nat),
        handle_text_frame p cAllow tAllow { env with v := x } blen
          = match handle_text_frame p cAllow tAllow env blen with
            | .dispatched e => .dispatched { e with v := x }
            | o => o)
    ∧ (∀ (p : TenantPolicyRuntime) (cAllow tAllow : Bool) (env e : Envelope)
        (blen : Nat),
        handle_text_frame p cAllow tAllow env blen = .dispatched e → e = env)
    ∧ (∀ (v s o f : Nat) (rest : List Nat), v ≠ 1 →
        decode_hot_frame (v :: s :: o :: f :: rest) = .error .unsupportedVersion) := by
  refine ⟨fun _ _ => rfl, ?_, ?_, ?_⟩
  · intro p cAllow tAllow env blen x
    by_cases hc : (p.hasConnLimiter && !cAllow) = true
    · simp [handle_text_frame, hc]
    · rw [Bool.not_eq_true] at hc
      simp only [handle_text_frame, hc, Bool.false_eq_true, if_false]
      cases hd : check_text p tAllow blen env.svc env.msg_type <;> simp
  · intro p cAllow tAllow env e blen h
    by_cases hc : (p.hasConnLimiter && !cAllow) = true
    · simp [handle_text_frame, hc] at h
    · rw [Bool.not_eq_true] at hc
      simp only [handle_text_frame, hc, Bool.false_eq_true, if_false] at h
      cases hd : check_text p tAllow blen env.svc env.msg_type <;>
        rw [hd] at h <;> simp at h
      exact h.symm
  · intro v s o f rest hv
    simp [decode_hot_frame, hv]

/-- C9 witness: a `v = 0` and a `v = 255` envelope are handled exactly like
the `v = 1` envelope on the Ext lane (all are dispatched), while the Hot lane
rejects version 0. -/
theorem ext_lane_ignores_version_witness :
    handle_text_frame pConn true true { envJoin with v := 0 } 60
      = .dispatched { envJoin with v := 0 }
    ∧ handle_text_frame pConn true true { envJoin with v := 255 } 60
      = .dispatched { envJoin with v := 255 }
    ∧ decode_hot_frame [0, 1, 2, 0] = .error .unsupportedVersion := by
  have h0 := ext_lane_ignores_version.2.1 pConn true true envJoin 60 0
  have h255 := ext_lane_ignores_version.2.1 pConn true true envJoin 60 255
  have hbase : handle_text_frame pConn true true envJoin 60 = .dispatched envJoin := by decide
  rw [hbase] at h0 h255
  exact ⟨h0, h255, ext_lane_ignores_version.2.2.2 0 1 2 0 [] (by decide)⟩

/-! ## Claim C8 — session id acceptance -/

/-- C8 counterexample: the claim says a client-supplied sid is accepted only
if non-empty and at most 64 characters.  `run_session` takes
`q.sid.unwrap_or_else(gen_sid)` with no validation: the empty client sid is
used as-is, and so is a 65-character one. -/
theorem sid_unvalidated_cex :
    sid_for (some "") 7 = ""
    ∧ ¬(("" : String) ≠ "" ∧ ("" : String).length ≤ 64)
    ∧ sid_for (some (String.mk (List.replicate 65 'a'))) 7
        = String.mk (List.replicate 65 'a')
    ∧ ¬(String.mk (List.replicate 65 'a')).length ≤ 64 := by
  refine ⟨rfl, by simp, rfl, by decide⟩

/-- C8 amended: the session id used to form the session key is the
client-supplied sid taken verbatim whenever one is present — with no
emptiness or length validation — and the server-generated hex of the
monotonic counter only when the client supplied none. -/
theorem sid_passthrough_amended :
    (∀ (s : String) (c : Nat), sid_for (some s) c = s)
    ∧ (∀ c : Nat, sid_for none c = gen_sid c)
    ∧ (∀ (t u s : String) (c : Nat),
        session_key_of t u (sid_for (some s) c) = t ++ "::" ++ u ++ "::" ++ s) :=
  ⟨fun _ _ => rfl, fun _ => rfl, fun _ _ _ _ => rfl⟩

/-! ## Session registry — `realtime/core/session_registry.rs`

`DashMap`s become functions `String → Option _`, `DashSet`s become
duplicate-free lists, atomics become naturals, and the lock-free operations
are read in their linearized (sequential) order. -/

/-- Pointwise map update. -/
def upd {α : Type} (m : String → Option α) (k : String) (v : Option α) :
    String → Option α :=
  fun k' => if k' = k then v else m k'

/-- `DashSet::insert`: a set never holds duplicates. -/
def setInsert (l : List String) (x : String) : List String :=
  if x ∈ l then l else x :: l

/-- `DashSet::remove`. -/
def setRemove (l : List String) (x : String) : List String :=
  l.filter (· ≠ x)

/-- One session's outbound queue sender (`Connection` in
`session_registry.rs`); the bounded channel itself is an external
collaborator, identified here by a handle id. -/
structure Connection where
  tx : Nat
deriving DecidableEq

/-- `SessionEntry` from `session_registry.rs`. -/
structure SessionEntry where
  conn : Connection
  created_seq : Nat
  tenant_id : String
deriving DecidableEq

/-- `SessionRegistry` from `session_registry.rs`: session table, per-user
index, per-tenant counter, and the monotonic sequence counter. -/
structure SessionRegistry where
  sessions : String → Option SessionEntry
  user_index : String → Option (List String)
  tenant_counts : String → Option Nat
  seq : Nat

/-- `SessionRegistry::new`: empty maps, `seq` starts at 1. -/
def SessionRegistry.new : SessionRegistry :=
  { sessions := fun _ => none
    user_index := fun _ => none
    tenant_counts := fun _ => none
    seq := 1 }

/-- `count_tenant_sessions`: the counter's value, 0 when absent. -/
def SessionRegistry.count_tenant_sessions (s : SessionRegistry) (tenant_id : String) : Nat :=
  (s.tenant_counts tenant_id).getD 0

/-- `try_insert` from `session_registry.rs`, linearized.  The result flag is
`true` for `Ok(())` and `false` for `Err(ResourceExhausted)`.  Steps follow
the source: `or_insert(0)` on the tenant counter, strict pre-check, optimistic
increment, re-check with revert (dead under sequential execution but kept),
then user-index insert, `created_seq := seq.fetch_add(1)`, session insert. -/
def SessionRegistry.try_insert (s : SessionRegistry)
    (tenant_id user_key session_key : String) (conn : Connection)
    (max_total : Nat) : SessionRegistry × Bool :=
  let cnt0 := (s.tenant_counts tenant_id).getD 0
  let s0 := { s with tenant_counts := upd s.tenant_counts tenant_id (some cnt0) }
  if 0 < max_total ∧ max_total ≤ cnt0 then
    (s0, false)
  else
    let s1 := { s0 with tenant_counts := upd s0.tenant_counts tenant_id (some (cnt0 + 1)) }
    if 0 < max_total ∧ max_total < cnt0 + 1 then
      ({ s1 with tenant_counts := upd s1.tenant_counts tenant_id (some cnt0) }, false)
    else
      ({ sessions := upd s1.sessions session_key
            (some ⟨conn, s1.seq, tenant_id⟩)
         user_index := upd s1.user_index user_key
            (some (setInsert ((s1.user_index user_key).getD []) session_key))
         tenant_counts := s1.tenant_counts
         seq := s1.seq + 1 }, true)

/-- `remove_session` from `session_registry.rs`: drop the key from the user's
set (removing the set when it empties), remove the table entry, decrement the
tenant counter (u64 wrap-around made explicit), return the queue handle. -/
def SessionRegistry.remove_session (s : SessionRegistry)
    (user_key session_key : String) : SessionRegistry × Option Connection :=
  let ui := match s.user_index user_key with
    | some set =>
      let set' := setRemove set session_key
      if set'.isEmpty then upd s.user_index user_key none
      else upd s.user_index user_key (some set')
    | none => s.user_index
  match s.sessions session_key with
  | some e =>
    let tc := match s.tenant_counts e.tenant_id with
      | some n => upd s.tenant_counts e.tenant_id (some ((n + (2 ^ 64 - 1)) % 2 ^ 64))
      | none => s.tenant_counts
    ({ sessions := upd s.sessions session_key none
       user_index := ui
       tenant_counts := tc
       seq := s.seq }, some e.conn)
  | none => ({ s with user_index := ui }, none)

/-- `u64::MAX`, the initial `victim_seq` of `evict_oldest`'s scan. -/
def u64Max : Nat := 2 ^ 64 - 1

/-- The scan loop of `evict_oldest`: fold over the indexed keys, keeping the
live entry with the smallest `created_seq`; an indexed key with no table
entry is skipped. -/
def evictScan (s : SessionRegistry) : List String → Option String × Nat → Option String × Nat
  | [], acc => acc
  | k :: ks, acc =>
    let acc' := match s.sessions k with
      | some e => if e.created_seq < acc.2 then (some k, e.created_seq) else acc
      | none => acc
    evictScan s ks acc'

/-- `evict_oldest` from `session_registry.rs`: scan the user's indexed keys
for the minimum `created_seq`, then `remove_session` the victim; returns the
victim key, its queue handle, and the updated registry. -/
def SessionRegistry.evict_oldest (s : SessionRegistry) (user_key : String) :
    Option (String × Connection × SessionRegistry) :=
  match s.user_index user_key with
  | none => none
  | some keys =>
    match (evictScan s keys (none, u64Max)).1 with
    | none => none
    | some victim =>
      match s.remove_session user_key victim with
      | (s', some conn) => some (victim, conn, s')
      | (_, none) => none

theorem mem_setInsert_self (l : List String) (x : String) : x ∈ setInsert l x := by
  by_cases h : x ∈ l <;> simp [setInsert, h]

theorem not_mem_setRemove_self (l : List String) (x : String) : x ∉ setRemove l x := by
  simp [setRemove]

theorem mem_setRemove_of_ne {l : List String} {x y : String} (h : y ≠ x) :
    y ∈ setRemove l x ↔ y ∈ l := by
  simp [setRemove, h]

theorem mem_setInsert_of_ne {l : List String} {x y : String} (h : y ≠ x) :
    y ∈ setInsert l x ↔ y ∈ l := by
  by_cases hx : x ∈ l <;> simp [setInsert, hx, h]

/-! ## Claim C4 — `try_insert` cap enforcement -/

/-- C4: with a positive tenant cap, `try_insert` admits only when the tenant
counter is below the cap; on `ResourceExhausted` the session table and user
index are unchanged and the counter's value is net-unchanged; on `Ok` the
entry is present under `session_key`, the session is in the user's index, and
the counter has grown by exactly one. -/
theorem try_insert_spec (s : SessionRegistry) (t uk sk : String)
    (conn : Connection) (max_total : Nat) (hmax : 0 < max_total) :
    ((s.try_insert t uk sk conn max_total).2 = true →
      s.count_tenant_sessions t < max_total
      ∧ (s.try_insert t uk sk conn max_total).1.sessions sk = some ⟨conn, s.seq, t⟩
      ∧ (∃ l, (s.try_insert t uk sk conn max_total).1.user_index uk = some l ∧ sk ∈ l)
      ∧ (s.try_insert t uk sk conn max_total).1.count_tenant_sessions t
          = s.count_tenant_sessions t + 1)
    ∧ ((s.try_insert t uk sk conn max_total).2 = false →
      (s.try_insert t uk sk conn max_total).1.sessions = s.sessions
      ∧ (s.try_insert t uk sk conn max_total).1.user_index = s.user_index
      ∧ (s.try_insert t uk sk conn max_total).1.count_tenant_sessions t
          = s.count_tenant_sessions t) := by
  by_cases h1 : max_total ≤ (s.tenant_counts t).getD 0
  · have hres : s.try_insert t uk sk conn max_total
        = ({ s with tenant_counts := upd s.tenant_counts t (some ((s.tenant_counts t).getD 0)) },
           false) := by
      simp only [SessionRegistry.try_insert]
      rw [if_pos ⟨hmax, h1⟩]
    rw [hres]
    refine ⟨fun h => absurd h (by simp), fun _ => ⟨rfl, rfl, ?_⟩⟩
    simp [SessionRegistry.count_tenant_sessions, upd]
  · have h2 : ¬ (0 < max_total ∧ max_total ≤ (s.tenant_counts t).getD 0) := by
      intro hx; exact h1 hx.2
    have h3 : ¬ (0 < max_total ∧ max_total < (s.tenant_counts t).getD 0 + 1) := by
      intro hx; exact h1 (Nat.lt_succ_iff.mp hx.2)
    have hres : s.try_insert t uk sk conn max_total
        = ({ sessions := upd s.sessions sk (some ⟨conn, s.seq, t⟩)
             user_index := upd s.user_index uk
                (some (setInsert ((s.user_index uk).getD []) sk))
             tenant_counts := upd (upd s.tenant_counts t (some ((s.tenant_counts t).getD 0)))
                t (some ((s.tenant_counts t).getD 0 + 1))
             seq := s.seq + 1 }, true) := by
      simp only [SessionRegistry.try_insert]
      rw [if_neg h2, if_neg h3]
    rw [hres]
    refine ⟨fun _ => ⟨Nat.lt_of_not_le h1, ?_, ?_, ?_⟩, fun h => absurd h (by simp)⟩
    · simp [upd]
    · refine ⟨setInsert ((s.user_index uk).getD []) sk, ?_, mem_setInsert_self _ _⟩
      simp [upd]
    · simp [SessionRegistry.count_tenant_sessions, upd]

/-- C4 witness: from the empty registry with cap 2, the first insert is
admitted with the stated postconditions. -/
theorem try_insert_spec_witness :
    SessionRegistry.new.count_tenant_sessions "acme" < 2
    ∧ (SessionRegistry.new.try_insert "acme" "acme::dev" "acme::dev::1" ⟨0⟩ 2).1.sessions
        "acme::dev::1" = some ⟨⟨0⟩, 1, "acme"⟩
    ∧ (∃ l, (SessionRegistry.new.try_insert "acme" "acme::dev" "acme::dev::1" ⟨0⟩ 2).1.user_index
        "acme::dev" = some l ∧ "acme::dev::1" ∈ l)
    ∧ (SessionRegistry.new.try_insert "acme" "acme::dev" "acme::dev::1" ⟨0⟩ 2).1.count_tenant_sessions
        "acme" = SessionRegistry.new.count_tenant_sessions "acme" + 1 :=
  (try_insert_spec SessionRegistry.new "acme" "acme::dev" "acme::dev::1" ⟨0⟩ 2
    (by decide)).1 (by decide)

/-! ## Claim C7 — oldest-first eviction and the monotonic sequence counter -/

/-- Invariant of `evict_oldest`'s scan loop: the accumulator either survives
untouched or is replaced by a live indexed entry; the tracked seq never grows
and ends below every live indexed entry's `created_seq`. -/
theorem evictScan_spec (s : SessionRegistry) (keys : List String)
    (acc : Option String × Nat) :
    (evictScan s keys acc = acc
      ∨ ∃ k e, (evictScan s keys acc).1 = some k ∧ k ∈ keys
          ∧ s.sessions k = some e ∧ e.created_seq = (evictScan s keys acc).2)
    ∧ (evictScan s keys acc).2 ≤ acc.2
    ∧ ∀ k ∈ keys, ∀ e, s.sessions k = some e →
        (evictScan s keys acc).2 ≤ e.created_seq := by
  induction keys generalizing acc with
  | nil => simp [evictScan]
  | cons k ks ih =>
    cases hs : s.sessions k with
    | none =>
      have hstep : evictScan s (k :: ks) acc = evictScan s ks acc := by
        simp [evictScan, hs]
      obtain ⟨hdis, hle, hmin⟩ := ih acc
      rw [hstep]
      refine ⟨?_, hle, ?_⟩
      · rcases hdis with h | ⟨k', e', h1, h2, h3, h4⟩
        · exact Or.inl h
        · exact Or.inr ⟨k', e', h1, List.mem_cons_of_mem _ h2, h3, h4⟩
      · intro k' hk' e' he'
        rcases List.mem_cons.mp hk' with rfl | hk'
        · rw [hs] at he'; cases he'
        · exact hmin k' hk' e' he'
    | some e =>
      by_cases hlt : e.created_seq < acc.2
      · have hstep : evictScan s (k :: ks) acc
            = evictScan s ks (some k, e.created_seq) := by
          simp [evictScan, hs, hlt]
        obtain ⟨hdis, hle, hmin⟩ := ih (some k, e.created_seq)
        rw [hstep]
        refine ⟨?_, le_trans hle (le_of_lt hlt), ?_⟩
        · rcases hdis with h | ⟨k', e', h1, h2, h3, h4⟩
          · exact Or.inr ⟨k, e, by rw [h], List.mem_cons_self _ _, hs, by rw [h]⟩
          · exact Or.inr ⟨k', e', h1, List.mem_cons_of_mem _ h2, h3, h4⟩
        · intro k' hk' e' he'
          rcases List.mem_cons.mp hk' with rfl | hk'
          · rw [hs] at he'
            cases he'
            exact hle
          · exact hmin k' hk' e' he'
      · have hstep : evictScan s (k :: ks) acc = evictScan s ks acc := by
          simp [evictScan, hs, hlt]
        obtain ⟨hdis, hle, hmin⟩ := ih acc
        rw [hstep]
        refine ⟨?_, hle, ?_⟩
        · rcases hdis with h | ⟨k', e', h1, h2, h3, h4⟩
          · exact Or.inl h
          · exact Or.inr ⟨k', e', h1, List.mem_cons_of_mem _ h2, h3, h4⟩
        · intro k' hk' e' he'
          rcases List.mem_cons.mp hk' with rfl | hk'
          · rw [hs] at he'
            cases he'
            exact le_trans hle (Nat.le_of_not_lt hlt)
          · exact hmin k' hk' e' he'

/-- C7: `created_seq` comes from the registry's strictly monotonic counter
with initial value 1 (`new` starts at 1, each admission stamps the current
value and bumps it); `evict_oldest` returns a live indexed session of minimum
`created_seq` — skipping dangling indexed keys — removes it from the session
table and the user index, and returns its queue handle.  The scan's sentinel
is `u64::MAX`, so live entries are assumed below it (true of every registry
reachable before the counter wraps). -/
theorem evict_oldest_spec :
    SessionRegistry.new.seq = 1
    ∧ (∀ (s : SessionRegistry) (t uk sk : String) (conn : Connection) (mx : Nat),
        ((s.try_insert t uk sk conn mx).2 = true →
          (s.try_insert t uk sk conn mx).1.sessions sk = some ⟨conn, s.seq, t⟩
          ∧ (s.try_insert t uk sk conn mx).1.seq = s.seq + 1)
        ∧ ((s.try_insert t uk sk conn mx).2 = false →
          (s.try_insert t uk sk conn mx).1.seq = s.seq))
    ∧ (∀ (s : SessionRegistry) (uk victim : String) (conn : Connection)
        (s' : SessionRegistry),
        (∀ k e, s.sessions k = some e → e.created_seq < u64Max) →
        s.evict_oldest uk = some (victim, conn, s') →
        ∃ keys e, s.user_index uk = some keys ∧ victim ∈ keys
          ∧ s.sessions victim = some e ∧ conn = e.conn
          ∧ (∀ k ∈ keys, ∀ e', s.sessions k = some e' →
              e.created_seq ≤ e'.created_seq)
          ∧ s'.sessions victim = none
          ∧ (∀ l, s'.user_index uk = some l → victim ∉ l))
    ∧ (∀ (s : SessionRegistry) (uk : String) (keys : List String) (k : String)
        (e : SessionEntry),
        (∀ k' e', s.sessions k' = some e' → e'.created_seq < u64Max) →
        s.user_index uk = some keys → k ∈ keys → s.sessions k = some e →
        s.evict_oldest uk ≠ none) := by
  refine ⟨rfl, ?_, ?_, ?_⟩
  · intro s t uk sk conn mx
    by_cases h1 : 0 < mx ∧ mx ≤ (s.tenant_counts t).getD 0
    · have hres : s.try_insert t uk sk conn mx
          = ({ s with tenant_counts := upd s.tenant_counts t (some ((s.tenant_counts t).getD 0)) },
             false) := by
        simp only [SessionRegistry.try_insert]
        rw [if_pos h1]
      rw [hres]
      exact ⟨fun h => absurd h (by simp), fun _ => rfl⟩
    · have h3 : ¬ (0 < mx ∧ mx < (s.tenant_counts t).getD 0 + 1) := by
        intro hx
        exact h1 ⟨hx.1, Nat.lt_succ_iff.mp hx.2⟩
      have hres : s.try_insert t uk sk conn mx
          = ({ sessions := upd s.sessions sk (some ⟨conn, s.seq, t⟩)
               user_index := upd s.user_index uk
                  (some (setInsert ((s.user_index uk).getD []) sk))
               tenant_counts := upd (upd s.tenant_counts t
                  (some ((s.tenant_counts t).getD 0)))
                  t (some ((s.tenant_counts t).getD 0 + 1))
               seq := s.seq + 1 }, true) := by
        simp only [SessionRegistry.try_insert]
        rw [if_neg h1, if_neg h3]
      rw [hres]
      refine ⟨fun _ => ⟨?_, rfl⟩, fun h => absurd h (by simp)⟩
      simp [upd]
  · intro s uk victim conn s' hbound hev
    unfold SessionRegistry.evict_oldest at hev
    split at hev
    · cases hev
    · rename_i keys hidx
      split at hev
      · cases hev
      · rename_i v hscan
        split at hev
        · rename_i sv cv hrem
          simp only [Option.some.injEq, Prod.mk.injEq] at hev
          obtain ⟨rfl, rfl, rfl⟩ := hev
          obtain ⟨hdis, _, hmin⟩ := evictScan_spec s keys (none, u64Max)
          rcases hdis with hacc | ⟨k', e', h1, h2, h3, h4⟩
          · rw [hacc] at hscan
            cases hscan
          · rw [hscan] at h1
            injection h1 with h1
            subst h1
            unfold SessionRegistry.remove_session at hrem
            simp only [hidx, h3] at hrem
            obtain ⟨hst, hcv⟩ := Prod.mk.injEq .. ▸ hrem
            refine ⟨keys, e', hidx, h2, h3, ?_, ?_, ?_, ?_⟩
            · injection hcv with hcv
              exact hcv.symm
            · intro k hk e'' he''
              rw [h4]
              exact hmin k hk e'' he''
            · rw [← hst]
              simp [upd]
            · intro l hl
              rw [← hst] at hl
              by_cases hemp : (setRemove keys v).isEmpty
              · simp [hemp, upd] at hl
              · simp [hemp, upd] at hl
                subst hl
                exact not_mem_setRemove_self _ _
        · cases hev
  · intro s uk keys k e hbound hidx hk he hnone
    unfold SessionRegistry.evict_oldest at hnone
    split at hnone
    · rename_i hidx2
      rw [hidx] at hidx2
      cases hidx2
    · rename_i keys2 hidx2
      rw [hidx] at hidx2
      injection hidx2 with hkeys
      subst hkeys
      obtain ⟨hdis, _, hmin⟩ := evictScan_spec s keys (none, u64Max)
      split at hnone
      · rename_i hscan
        rcases hdis with hacc | ⟨k', e', h1, h2, h3, h4⟩
        · have hle := hmin k hk e he
          rw [hacc] at hle
          exact absurd (hbound k e he) (Nat.not_lt.mpr hle)
        · rw [hscan] at h1
          cases h1
      · rename_i v hscan
        split at hnone
        · cases hnone
        · rename_i sv hrem
          rcases hdis with hacc | ⟨k', e', h1, h2, h3, h4⟩
          · rw [hacc] at hscan
            cases hscan
          · rw [hscan] at h1
            injection h1 with h1
            subst h1
            unfold SessionRegistry.remove_session at hrem
            simp only [hidx, h3] at hrem
            exact absurd ((Prod.mk.injEq .. ▸ hrem).2) (by simp)

/-- Two live sessions of user "u" with `created_seq` 1 and 2, plus a
dangling indexed key "c" with no table entry. -/
def regW : SessionRegistry :=
  { sessions := fun k =>
      if k = "a" then some ⟨⟨10⟩, 1, "t"⟩
      else if k = "b" then some ⟨⟨20⟩, 2, "t"⟩
      else none
    user_index := fun k => if k = "u" then some ["b", "c", "a"] else none
    tenant_counts := fun k => if k = "t" then some 2 else none
    seq := 3 }

/-- C7 witness: on `regW`, eviction for "u" picks the session with
`created_seq` 1 (skipping the dangling key "c"), removes it from the table and
the index, and returns its queue handle. -/
theorem evict_oldest_spec_witness :
    ∃ keys e, regW.user_index "u" = some keys ∧ "a" ∈ keys
      ∧ regW.sessions "a" = some e ∧ (⟨10⟩ : Connection) = e.conn
      ∧ (∀ k ∈ keys, ∀ e', regW.sessions k = some e' → e.created_seq ≤ e'.created_seq)
      ∧ (regW.remove_session "u" "a").1.sessions "a" = none
      ∧ (∀ l, (regW.remove_session "u" "a").1.user_index "u" = some l → "a" ∉ l) := by
  have hbound : ∀ k e, regW.sessions k = some e → e.created_seq < u64Max := by
    intro k e he
    unfold regW at he
    simp only at he
    split at he
    · cases he; decide
    · split at he
      · cases he; decide
      · cases he
  have hev : regW.evict_oldest "u" = some ("a", ⟨10⟩, (regW.remove_session "u" "a").1) := by
    rfl
  exact evict_oldest_spec.2.2.1 regW "u" "a" ⟨10⟩ _ hbound hev

/-! ## Presence registry — `realtime/core/presence.rs`

Same embedding conventions as the session registry.  The limit fields beyond
`max_frame_bytes` are absent from the shipped `config/schema.rs` but are read
by `ws.rs` and `presence.rs`. -/

/-- Modelled from the spec: `TenantLimits` in the shipped `config/schema.rs`
declares only `max_frame_bytes`, yet `ws.rs` reads `limits.max_sessions_total`
and `presence.rs` reads `limits.max_users_per_room`, `max_rooms_per_user` and
`max_rooms_total`; §6 of the spec lists all five fields.  All are u64-like
numbers where 0 disables the limit, per the call sites. -/
structure TenantLimits where
  max_frame_bytes : Nat
  max_sessions_total : Nat
  max_users_per_room : Nat
  max_rooms_per_user : Nat
  max_rooms_total : Nat
deriving DecidableEq

/-- All limits disabled. -/
def limitsOff : TenantLimits := ⟨4096, 0, 0, 0, 0⟩

/-- `Presence` from `presence.rs`: routing indices, governance indices, the
`user::room → session_count` ref-count map, and per-tenant room counters. -/
structure Presence where
  room_to_sessions : String → Option (List String)
  session_to_rooms : String → Option (List String)
  room_to_users : String → Option (List String)
  user_to_rooms : String → Option (List String)
  user_room_refs : String → Option Nat
  tenant_room_counts : String → Option Nat

/-- `Presence::new`. -/
def Presence.empty : Presence :=
  { room_to_sessions := fun _ => none
    session_to_rooms := fun _ => none
    room_to_users := fun _ => none
    user_to_rooms := fun _ => none
    user_room_refs := fun _ => none
    tenant_room_counts := fun _ => none }

/-- The composite ref-count key built in `try_join` and `leave`:
`format!("\x7b\x7d::\x7b\x7d", user_key, room_key)`. -/
def ref_key (user_key room_key : String) : String :=
  user_key ++ "::" ++ room_key

/-- Set stored under a key, the empty set when the entry is absent. -/
def lookupSet (m : String → Option (List String)) (k : String) : List String :=
  (m k).getD []

/-- The `entry(k).or_default().insert(x)` pattern used by `try_join`. -/
def govInsert (m : String → Option (List String)) (k x : String) :
    String → Option (List String) :=
  upd m k (some (setInsert (lookupSet m k) x))

/-- The removal pattern used by `leave`: remove `x` from the set under `k`
and drop the entry when the set empties; no entry, no change. -/
def govRemove (m : String → Option (List String)) (k x : String) :
    String → Option (List String) :=
  match m k with
  | some set =>
    if (setRemove set x).isEmpty then upd m k none
    else upd m k (some (setRemove set x))
  | none => m

/-- Whether removing `x` from the set under `k` empties it — `leave`'s
`room_empty` flag. -/
def emptiedBy (m : String → Option (List String)) (k x : String) : Bool :=
  match m k with
  | some set => (setRemove set x).isEmpty
  | none => false

/-- `try_join` check 1 (`presence.rs` 57–65): the room is at its user
capacity and the joining user is not already one of them. -/
def deny_users_per_room (s : Presence) (room_key user_key : String)
    (limits : TenantLimits) : Bool :=
  decide (0 < limits.max_users_per_room) &&
    (match s.room_to_users room_key with
      | some users =>
        decide (limits.max_users_per_room ≤ users.length) && !(users.contains user_key)
      | none => false)

/-- `try_join` check 2 (`presence.rs` 67–74): the user is at their room
capacity and is not already in this room. -/
def deny_rooms_per_user (s : Presence) (user_key room_key : String)
    (limits : TenantLimits) : Bool :=
  decide (0 < limits.max_rooms_per_user) &&
    (match s.user_to_rooms user_key with
      | some rooms =>
        decide (limits.max_rooms_per_user ≤ rooms.length) && !(rooms.contains room_key)
      | none => false)

/-- `try_join` check 3 (`presence.rs` 76–89): the room is new (no sessions)
and the tenant is at its total-room cap. -/
def deny_rooms_total (s : Presence) (tenant_id room_key : String)
    (limits : TenantLimits) : Bool :=
  (s.room_to_sessions room_key).isNone && decide (0 < limits.max_rooms_total)
    && decide (limits.max_rooms_total ≤ (s.tenant_room_counts tenant_id).getD 0)

/-- `try_join` from `presence.rs`, linearized.  The flag is `true` for
`Ok(())`.  Order follows the source: the three limit checks, the tenant room
counter bump for a new room, routing inserts, then the ref-count bump with
the governance indices updated only when the count becomes 1. -/
def Presence.try_join (s : Presence) (tenant_id room_key user_key session_key : String)
    (limits : TenantLimits) : Presence × Bool :=
  if deny_users_per_room s room_key user_key limits then
    (s, false)
  else if deny_rooms_per_user s user_key room_key limits then
    (s, false)
  else
    let cnt0 := (s.tenant_room_counts tenant_id).getD 0
    if deny_rooms_total s tenant_id room_key limits then
      ({ s with tenant_room_counts := upd s.tenant_room_counts tenant_id (some cnt0) }, false)
    else
      let s3 := if (s.room_to_sessions room_key).isNone then
          { s with tenant_room_counts := upd s.tenant_room_counts tenant_id (some (cnt0 + 1)) }
        else s
      let n := (s3.user_room_refs (ref_key user_key room_key)).getD 0 + 1
      let refs := upd s3.user_room_refs (ref_key user_key room_key) (some n)
      if n = 1 then
        ({ room_to_sessions := govInsert s3.room_to_sessions room_key session_key
           session_to_rooms := govInsert s3.session_to_rooms session_key room_key
           room_to_users := govInsert s3.room_to_users room_key user_key
           user_to_rooms := govInsert s3.user_to_rooms user_key room_key
           user_room_refs := refs
           tenant_room_counts := s3.tenant_room_counts }, true)
      else
        ({ s3 with
            room_to_sessions := govInsert s3.room_to_sessions room_key session_key
            session_to_rooms := govInsert s3.session_to_rooms session_key room_key
            user_room_refs := refs }, true)

/-- `leave` from `presence.rs`: remove the session from both routing indices
(dropping emptied sets), decrement the ref count (removing the entry and
purging the `(room, user)` pair from both governance indices when it reaches
0), and decrement the tenant room counter (u64 wrap made explicit) when the
room's session set became empty.  The decrement `*refs -= 1` is usize
arithmetic; entries are only ever created with value ≥ 1 (see
`leave_underflow_free`). -/
def Presence.leave (s : Presence) (tenant_id room_key user_key session_key : String) :
    Presence :=
  let room_empty := emptiedBy s.room_to_sessions room_key session_key
  let step2 := match s.user_room_refs (ref_key user_key room_key) with
    | some n =>
      if n - 1 = 0 then (upd s.user_room_refs (ref_key user_key room_key) none, true)
      else (upd s.user_room_refs (ref_key user_key room_key) (some (n - 1)), false)
    | none => (s.user_room_refs, false)
  let remove_user_mapping := step2.2
  { room_to_sessions := govRemove s.room_to_sessions room_key session_key
    session_to_rooms := govRemove s.session_to_rooms session_key room_key
    room_to_users := if remove_user_mapping then govRemove s.room_to_users room_key user_key
      else s.room_to_users
    user_to_rooms := if remove_user_mapping then govRemove s.user_to_rooms user_key room_key
      else s.user_to_rooms
    user_room_refs := step2.1
    tenant_room_counts := if room_empty then
        (match s.tenant_room_counts tenant_id with
          | some n => upd s.tenant_room_counts tenant_id (some ((n + (2 ^ 64 - 1)) % 2 ^ 64))
          | none => s.tenant_room_counts)
      else s.tenant_room_counts }

/-- `cleanup_session` from `presence.rs`: take the session's room set out of
`session_to_rooms`, then run the full `leave` for each room in it. -/
def Presence.cleanup_session (s : Presence) (tenant_id user_key session_key : String) :
    Presence :=
  match s.session_to_rooms session_key with
  | none => s
  | some rooms =>
    let s1 := { s with session_to_rooms := upd s.session_to_rooms session_key none }
    rooms.foldl (fun acc r => acc.leave tenant_id r user_key session_key) s1

/-- One presence-registry operation, for reachability statements. -/
inductive POp where
  | join (tenant_id room_key user_key session_key : String) (limits : TenantLimits)
  | exit (tenant_id room_key user_key session_key : String)
  | cleanup (tenant_id user_key session_key : String)

/-- Apply one operation (a failed `try_join` keeps the returned state). -/
def applyOp (s : Presence) : POp → Presence
  | .join t r u sk lim => (s.try_join t r u sk lim).1
  | .exit t r u sk => s.leave t r u sk
  | .cleanup t u sk => s.cleanup_session t u sk

/-- The state after a sequence of presence operations from the empty registry. -/
def runOps (ops : List POp) : Presence :=
  ops.foldl applyOp Presence.empty

/-! ### Set and map membership lemmas -/

theorem mem_setInsert (l : List String) (x y : String) :
    y ∈ setInsert l x ↔ y ∈ l ∨ y = x := by
  by_cases h : x ∈ l
  · simp only [setInsert, if_pos h]
    constructor
    · exact Or.inl
    · rintro (hy | rfl)
      · exact hy
      · exact h
  · simp [setInsert, if_neg h, or_comm]

theorem mem_setRemove (l : List String) (x y : String) :
    y ∈ setRemove l x ↔ y ∈ l ∧ y ≠ x := by
  simp [setRemove]

theorem mem_govInsert (m : String → Option (List String)) (k x k' y : String) :
    y ∈ lookupSet (govInsert m k x) k' ↔ (y ∈ lookupSet m k' ∨ (k' = k ∧ y = x)) := by
  unfold lookupSet govInsert upd
  by_cases h : k' = k
  · subst h
    simp [mem_setInsert, lookupSet]
  · simp [h]

theorem mem_govRemove (m : String → Option (List String)) (k x k' y : String) :
    y ∈ lookupSet (govRemove m k x) k' ↔ (y ∈ lookupSet m k' ∧ ¬(k' = k ∧ y = x)) := by
  by_cases h : k' = k
  · subst h
    cases hm : m k' with
    | none =>
      have hg : govRemove m k' x = m := by
        unfold govRemove
        rw [hm]
      rw [hg]
      simp [lookupSet, hm]
    | some set =>
      have h2 : lookupSet m k' = set := by simp [lookupSet, hm]
      by_cases hemp : (setRemove set x).isEmpty
      · have hg : govRemove m k' x = upd m k' none := by
          unfold govRemove
          simp only [hm]
          rw [if_pos hemp]
        have h1 : lookupSet (upd m k' none) k' = [] := by simp [lookupSet, upd]
        rw [hg, h1, h2]
        simp only [List.not_mem_nil, false_iff]
        rintro ⟨hy, hne⟩
        have hmem : y ∈ setRemove set x :=
          (mem_setRemove set x y).mpr ⟨hy, fun he => hne ⟨by trivial, he⟩⟩
        rw [List.isEmpty_iff] at hemp
        rw [hemp] at hmem
        cases hmem
      · have hg : govRemove m k' x = upd m k' (some (setRemove set x)) := by
          unfold govRemove
          simp only [hm]
          rw [if_neg hemp]
        have h1 : lookupSet (upd m k' (some (setRemove set x))) k' = setRemove set x := by
          simp [lookupSet, upd]
        rw [hg, h1, h2, mem_setRemove]
        constructor
        · exact fun hp => ⟨hp.1, fun hq => hp.2 hq.2⟩
        · exact fun hp => ⟨hp.1, fun he => hp.2 ⟨by trivial, he⟩⟩
  · have h1 : lookupSet (govRemove m k x) k' = lookupSet m k' := by
      unfold govRemove
      cases hm : m k with
      | none => rfl
      | some set =>
        simp only
        by_cases hemp : (setRemove set x).isEmpty
        · rw [if_pos hemp]
          simp [lookupSet, upd, h]
        · rw [if_neg hemp]
          simp [lookupSet, upd, h]
    rw [h1]
    simp [h]

/-! ### Effect lemmas for `try_join` and `leave` -/

/-- Case analysis of `try_join`: a denied join keeps the four index fields
unchanged; an admitted join bumps exactly the composite ref-count key,
inserts the routing links, and touches the governance indices exactly when
the count becomes 1. -/
theorem try_join_cases (s : Presence) (t r u sk : String) (lim : TenantLimits) :
    ((s.try_join t r u sk lim).2 = false
      ∧ (s.try_join t r u sk lim).1.user_room_refs = s.user_room_refs
      ∧ (s.try_join t r u sk lim).1.user_to_rooms = s.user_to_rooms
      ∧ (s.try_join t r u sk lim).1.room_to_users = s.room_to_users
      ∧ (s.try_join t r u sk lim).1.session_to_rooms = s.session_to_rooms)
    ∨ ((s.try_join t r u sk lim).2 = true
      ∧ (s.try_join t r u sk lim).1.user_room_refs
          = upd s.user_room_refs (ref_key u r)
              (some ((s.user_room_refs (ref_key u r)).getD 0 + 1))
      ∧ (s.try_join t r u sk lim).1.session_to_rooms
          = govInsert s.session_to_rooms sk r
      ∧ (((s.user_room_refs (ref_key u r)).getD 0 = 0
            ∧ (s.try_join t r u sk lim).1.user_to_rooms = govInsert s.user_to_rooms u r
            ∧ (s.try_join t r u sk lim).1.room_to_users = govInsert s.room_to_users r u)
          ∨ (0 < (s.user_room_refs (ref_key u r)).getD 0
            ∧ (s.try_join t r u sk lim).1.user_to_rooms = s.user_to_rooms
            ∧ (s.try_join t r u sk lim).1.room_to_users = s.room_to_users))) := by
  unfold Presence.try_join
  by_cases hd1 : deny_users_per_room s r u lim = true
  · left
    simp [hd1]
  · rw [Bool.not_eq_true] at hd1
    by_cases hd2 : deny_rooms_per_user s u r lim = true
    · left
      simp [hd1, hd2]
    · rw [Bool.not_eq_true] at hd2
      by_cases hd3 : deny_rooms_total s t r lim = true
      · left
        simp [hd1, hd2, hd3]
      · rw [Bool.not_eq_true] at hd3
        right
        cases hnew : (s.room_to_sessions r).isNone with
        | true =>
          by_cases hn : (s.user_room_refs (ref_key u r)).getD 0 + 1 = 1
          · have h0 : (s.user_room_refs (ref_key u r)).getD 0 = 0 := by omega
            refine ⟨?_, ?_, ?_, Or.inl ⟨h0, ?_, ?_⟩⟩ <;>
              simp [hd1, hd2, hd3, hnew, hn]
          · have h0 : 0 < (s.user_room_refs (ref_key u r)).getD 0 := by omega
            refine ⟨?_, ?_, ?_, Or.inr ⟨h0, ?_, ?_⟩⟩ <;>
              simp [hd1, hd2, hd3, hnew, hn]
        | false =>
          by_cases hn : (s.user_room_refs (ref_key u r)).getD 0 + 1 = 1
          · have h0 : (s.user_room_refs (ref_key u r)).getD 0 = 0 := by omega
            refine ⟨?_, ?_, ?_, Or.inl ⟨h0, ?_, ?_⟩⟩ <;>
              simp [hd1, hd2, hd3, hnew, hn]
          · have h0 : 0 < (s.user_room_refs (ref_key u r)).getD 0 := by omega
            refine ⟨?_, ?_, ?_, Or.inr ⟨h0, ?_, ?_⟩⟩ <;>
              simp [hd1, hd2, hd3, hnew, hn]

/-- Case analysis of `leave`: no ref-count entry means the ref map and both
governance indices are untouched; an entry of value `n` is removed (with the
governance pair purged) when `n - 1 = 0` and decremented otherwise; the
session routing link is removed in every case. -/
theorem leave_cases (s : Presence) (t r u sk : String) :
    (s.leave t r u sk).session_to_rooms = govRemove s.session_to_rooms sk r
    ∧ ((s.user_room_refs (ref_key u r) = none
        ∧ (s.leave t r u sk).user_room_refs = s.user_room_refs
        ∧ (s.leave t r u sk).user_to_rooms = s.user_to_rooms
        ∧ (s.leave t r u sk).room_to_users = s.room_to_users)
      ∨ (∃ n, s.user_room_refs (ref_key u r) = some n ∧
          ((n - 1 = 0
            ∧ (s.leave t r u sk).user_room_refs = upd s.user_room_refs (ref_key u r) none
            ∧ (s.leave t r u sk).user_to_rooms = govRemove s.user_to_rooms u r
            ∧ (s.leave t r u sk).room_to_users = govRemove s.room_to_users r u)
          ∨ (n - 1 ≠ 0
            ∧ (s.leave t r u sk).user_room_refs
                = upd s.user_room_refs (ref_key u r) (some (n - 1))
            ∧ (s.leave t r u sk).user_to_rooms = s.user_to_rooms
            ∧ (s.leave t r u sk).room_to_users = s.room_to_users)))) := by
  cases href : s.user_room_refs (ref_key u r) with
  | none =>
    refine ⟨?_, Or.inl ⟨rfl, ?_, ?_, ?_⟩⟩ <;> simp [Presence.leave, href]
  | some n =>
    by_cases hn : n - 1 = 0
    · refine ⟨?_, Or.inr ⟨n, rfl, Or.inl ⟨hn, ?_, ?_, ?_⟩⟩⟩ <;>
        simp [Presence.leave, href, hn]
    · refine ⟨?_, Or.inr ⟨n, rfl, Or.inr ⟨hn, ?_, ?_, ?_⟩⟩⟩ <;>
        simp [Presence.leave, href, hn]

/-! ### Reachability invariants -/

/-- Every stored ref-count is at least 1 (entries are created at 1 and
removed when they hit 0). -/
def refsGE1 (s : Presence) : Prop :=
  ∀ k n, s.user_room_refs k = some n → 1 ≤ n

theorem refsGE1_join {s : Presence} (h : refsGE1 s) (t r u sk : String)
    (lim : TenantLimits) : refsGE1 ((s.try_join t r u sk lim).1) := by
  rcases try_join_cases s t r u sk lim with ⟨_, hrefs, _, _, _⟩ | ⟨_, hrefs, _, _⟩
  · intro k n hk
    rw [hrefs] at hk
    exact h k n hk
  · intro k n hk
    rw [hrefs] at hk
    unfold upd at hk
    by_cases hkk : k = ref_key u r
    · rw [if_pos hkk] at hk
      injection hk with hk
      omega
    · rw [if_neg hkk] at hk
      exact h k n hk

theorem refsGE1_leave {s : Presence} (h : refsGE1 s) (t r u sk : String) :
    refsGE1 (s.leave t r u sk) := by
  rcases (leave_cases s t r u sk).2 with ⟨_, hrefs, _, _⟩ |
    ⟨n, href, ⟨_, hrefs, _, _⟩ | ⟨hn, hrefs, _, _⟩⟩
  · intro k m hk
    rw [hrefs] at hk
    exact h k m hk
  · intro k m hk
    rw [hrefs] at hk
    unfold upd at hk
    by_cases hkk : k = ref_key u r
    · rw [if_pos hkk] at hk
      cases hk
    · rw [if_neg hkk] at hk
      exact h k m hk
  · intro k m hk
    rw [hrefs] at hk
    unfold upd at hk
    by_cases hkk : k = ref_key u r
    · rw [if_pos hkk] at hk
      injection hk with hk
      omega
    · rw [if_neg hkk] at hk
      exact h k m hk

theorem refsGE1_foldLeave {s : Presence} (h : refsGE1 s) (t u sk : String) :
    ∀ rooms : List String,
      refsGE1 (rooms.foldl (fun acc r => acc.leave t r u sk) s) := by
  intro rooms
  induction rooms generalizing s with
  | nil => exact h
  | cons r rest ih => exact ih (refsGE1_leave h t r u sk)

theorem refsGE1_cleanup {s : Presence} (h : refsGE1 s) (t u sk : String) :
    refsGE1 (s.cleanup_session t u sk) := by
  unfold Presence.cleanup_session
  cases hsr : s.session_to_rooms sk with
  | none => exact h
  | some rooms =>
    simp only
    exact refsGE1_foldLeave
      (s := { s with session_to_rooms := upd s.session_to_rooms sk none })
      (fun k n hk => h k n hk) t u sk rooms

theorem refsGE1_runOps (ops : List POp) : refsGE1 (runOps ops) := by
  have hgen : ∀ (l : List POp) (s : Presence), refsGE1 s →
      refsGE1 (l.foldl applyOp s) := by
    intro l
    induction l with
    | nil => exact fun s hs => hs
    | cons op rest ih =>
      intro s hs
      refine ih (applyOp s op) ?_
      cases op with
      | join t r u sk lim => exact refsGE1_join hs t r u sk lim
      | exit t r u sk => exact refsGE1_leave hs t r u sk
      | cleanup t u sk => exact refsGE1_cleanup hs t u sk
  exact hgen ops Presence.empty (fun k n hk => by cases hk)

/-- Injectivity of the composite ref-count keys over a universe of user and
room keys.  The encoding `u ++ "::" ++ r` is not injective in general (keys
may themselves contain `::`), which is exactly what the C6 counterexample
exploits; this predicate singles out the universes on which it is. -/
def PKeyInj (U R : List String) : Prop :=
  ∀ u ∈ U, ∀ r ∈ R, ∀ u' ∈ U, ∀ r' ∈ R, ref_key u r = ref_key u' r' → u = u' ∧ r = r'

/-- The user and room keys of an operation lie in the universes `U`, `R`. -/
def opInDom (U R : List String) : POp → Prop
  | .join _ r u _ _ => u ∈ U ∧ r ∈ R
  | .exit _ r u _ => u ∈ U ∧ r ∈ R
  | .cleanup _ u _ => u ∈ U

/-- The governance invariant (spec I3) relative to universes `U`, `R`:
every room linked to a session lies in `R`, and for every pair in `U × R`
membership in `user_to_rooms` and in `room_to_users` is equivalent to a
positive ref-count under the pair's composite key. -/
structure GovInv (s : Presence) (U R : List String) : Prop where
  rooms_dom : ∀ sk r, r ∈ lookupSet s.session_to_rooms sk → r ∈ R
  govern : ∀ u ∈ U, ∀ r ∈ R,
    (r ∈ lookupSet s.user_to_rooms u ↔ 0 < (s.user_room_refs (ref_key u r)).getD 0)
    ∧ (u ∈ lookupSet s.room_to_users r ↔ 0 < (s.user_room_refs (ref_key u r)).getD 0)

theorem govInv_join {s : Presence} {U R : List String} (hinj : PKeyInj U R)
    {u r : String} (hu : u ∈ U) (hr : r ∈ R) (t sk : String) (lim : TenantLimits)
    (h : GovInv s U R) : GovInv ((s.try_join t r u sk lim).1) U R := by
  rcases try_join_cases s t r u sk lim with ⟨_, hrefs, hutr, hrtu, hstr⟩ |
    ⟨_, hrefs, hstr, hgov⟩
  · constructor
    · intro sk' r' hmem
      rw [hstr] at hmem
      exact h.rooms_dom sk' r' hmem
    · intro u' hu' r' hr'
      rw [hutr, hrtu, hrefs]
      exact h.govern u' hu' r' hr'
  · constructor
    · intro sk' r' hmem
      rw [hstr] at hmem
      rcases (mem_govInsert _ _ _ _ _).mp hmem with hmem' | ⟨_, rfl⟩
      · exact h.rooms_dom sk' r' hmem'
      · exact hr
    · intro u' hu' r' hr'
      by_cases hpair : u' = u ∧ r' = r
      · obtain ⟨rfl, rfl⟩ := hpair
        have hkey : ((s.try_join t r' u' sk lim).1).user_room_refs (ref_key u' r')
            = some ((s.user_room_refs (ref_key u' r')).getD 0 + 1) := by
          rw [hrefs]
          simp [upd]
        rcases hgov with ⟨h0, hutr, hrtu⟩ | ⟨h0, hutr, hrtu⟩
        · constructor
          · rw [hutr, hkey]
            refine iff_of_true ?_ (by simp)
            exact (mem_govInsert _ _ _ _ _).mpr (Or.inr ⟨rfl, rfl⟩)
          · rw [hrtu, hkey]
            refine iff_of_true ?_ (by simp)
            exact (mem_govInsert _ _ _ _ _).mpr (Or.inr ⟨rfl, rfl⟩)
        · constructor
          · rw [hutr, hkey]
            refine iff_of_true ?_ (by simp)
            exact ((h.govern u' hu' r' hr').1).mpr h0
          · rw [hrtu, hkey]
            refine iff_of_true ?_ (by simp)
            exact ((h.govern u' hu' r' hr').2).mpr h0
      · have hkne : ref_key u' r' ≠ ref_key u r := by
          intro he
          exact hpair (hinj u' hu' r' hr' u hu r hr he)
        have hkey : ((s.try_join t r u sk lim).1).user_room_refs (ref_key u' r')
            = s.user_room_refs (ref_key u' r') := by
          rw [hrefs]
          simp [upd, hkne]
        rw [hkey]
        rcases hgov with ⟨h0, hutr, hrtu⟩ | ⟨h0, hutr, hrtu⟩
        · constructor
          · rw [hutr, mem_govInsert]
            have : ¬(u' = u ∧ r' = r) := hpair
            simp only [this, or_false]
            exact (h.govern u' hu' r' hr').1
          · rw [hrtu, mem_govInsert]
            have : ¬(r' = r ∧ u' = u) := fun hx => hpair ⟨hx.2, hx.1⟩
            simp only [this, or_false]
            exact (h.govern u' hu' r' hr').2
        · rw [hutr, hrtu]
          exact h.govern u' hu' r' hr'

theorem govInv_leave {s : Presence} {U R : List String} (hinj : PKeyInj U R)
    {u r : String} (hu : u ∈ U) (hr : r ∈ R) (t sk : String)
    (h : GovInv s U R) : GovInv (s.leave t r u sk) U R := by
  obtain ⟨hstr, hcases⟩ := leave_cases s t r u sk
  have hdom : ∀ sk' r', r' ∈ lookupSet ((s.leave t r u sk).session_to_rooms) sk' → r' ∈ R := by
    intro sk' r' hmem
    rw [hstr] at hmem
    exact h.rooms_dom sk' r' ((mem_govRemove _ _ _ _ _).mp hmem).1
  rcases hcases with ⟨href, hrefs, hutr, hrtu⟩ |
    ⟨n, href, ⟨hn, hrefs, hutr, hrtu⟩ | ⟨hn, hrefs, hutr, hrtu⟩⟩
  · exact ⟨hdom, fun u' hu' r' hr' => by
      rw [hutr, hrtu, hrefs]
      exact h.govern u' hu' r' hr'⟩
  · refine ⟨hdom, fun u' hu' r' hr' => ?_⟩
    by_cases hpair : u' = u ∧ r' = r
    · obtain ⟨rfl, rfl⟩ := hpair
      have hkey : (s.leave t r' u' sk).user_room_refs (ref_key u' r') = none := by
        rw [hrefs]
        simp [upd]
      constructor
      · rw [hutr, hkey]
        refine iff_of_false ?_ (by simp)
        rw [mem_govRemove]
        rintro ⟨_, hne⟩
        exact hne ⟨rfl, rfl⟩
      · rw [hrtu, hkey]
        refine iff_of_false ?_ (by simp)
        rw [mem_govRemove]
        rintro ⟨_, hne⟩
        exact hne ⟨rfl, rfl⟩
    · have hkne : ref_key u' r' ≠ ref_key u r := by
        intro he
        exact hpair (hinj u' hu' r' hr' u hu r hr he)
      have hkey : (s.leave t r u sk).user_room_refs (ref_key u' r')
          = s.user_room_refs (ref_key u' r') := by
        rw [hrefs]
        simp [upd, hkne]
      rw [hkey]
      constructor
      · rw [hutr, mem_govRemove]
        have : ¬(u' = u ∧ r' = r) := hpair
        simp only [this, not_false_iff, and_true]
        exact (h.govern u' hu' r' hr').1
      · rw [hrtu, mem_govRemove]
        have : ¬(r' = r ∧ u' = u) := fun hx => hpair ⟨hx.2, hx.1⟩
        simp only [this, not_false_iff, and_true]
        exact (h.govern u' hu' r' hr').2
  · refine ⟨hdom, fun u' hu' r' hr' => ?_⟩
    by_cases hpair : u' = u ∧ r' = r
    · obtain ⟨rfl, rfl⟩ := hpair
      have hkey : (s.leave t r' u' sk).user_room_refs (ref_key u' r') = some (n - 1) := by
        rw [hrefs]
        simp [upd]
      have hbefore : 0 < (s.user_room_refs (ref_key u' r')).getD 0 := by
        rw [href]
        simp only [Option.getD_some]
        omega
      constructor
      · rw [hutr, hkey]
        refine iff_of_true ?_ (by simp; omega)
        exact ((h.govern u' hu' r' hr').1).mpr hbefore
      · rw [hrtu, hkey]
        refine iff_of_true ?_ (by simp; omega)
        exact ((h.govern u' hu' r' hr').2).mpr hbefore
    · have hkne : ref_key u' r' ≠ ref_key u r := by
        intro he
        exact hpair (hinj u' hu' r' hr' u hu r hr he)
      have hkey : (s.leave t r u sk).user_room_refs (ref_key u' r')
          = s.user_room_refs (ref_key u' r') := by
        rw [hrefs]
        simp [upd, hkne]
      rw [hkey, hutr, hrtu]
      exact h.govern u' hu' r' hr'

theorem govInv_foldLeave {U R : List String} (hinj : PKeyInj U R)
    {u : String} (hu : u ∈ U) (t sk : String) :
    ∀ (rooms : List String) (s : Presence), (∀ r ∈ rooms, r ∈ R) → GovInv s U R →
      GovInv (rooms.foldl (fun acc r => acc.leave t r u sk) s) U R := by
  intro rooms
  induction rooms with
  | nil => exact fun s _ hs => hs
  | cons r rest ih =>
    intro s hd hs
    exact ih (s.leave t r u sk) (fun r' hr' => hd r' (List.mem_cons_of_mem _ hr'))
      (govInv_leave hinj hu (hd r (List.mem_cons_self _ _)) t sk hs)

theorem govInv_cleanup {s : Presence} {U R : List String} (hinj : PKeyInj U R)
    {u : String} (hu : u ∈ U) (t sk : String)
    (h : GovInv s U R) : GovInv (s.cleanup_session t u sk) U R := by
  unfold Presence.cleanup_session
  cases hsr : s.session_to_rooms sk with
  | none => exact h
  | some rooms =>
    simp only
    have hs1 : GovInv { s with session_to_rooms := upd s.session_to_rooms sk none } U R := by
      constructor
      · intro sk' r' hmem
        simp only [lookupSet, upd] at hmem
        by_cases hkk : sk' = sk
        · rw [if_pos hkk] at hmem
          cases hmem
        · rw [if_neg hkk] at hmem
          exact h.rooms_dom sk' r' hmem
      · exact h.govern
    refine govInv_foldLeave hinj hu t sk rooms _ ?_ hs1
    intro r' hr'
    refine h.rooms_dom sk r' ?_
    simp [lookupSet, hsr, hr']

theorem govInv_empty (U R : List String) : GovInv Presence.empty U R := by
  constructor
  · intro sk r hmem
    simp [lookupSet, Presence.empty] at hmem
  · intro u _ r _
    constructor <;> simp [lookupSet, Presence.empty]

theorem govInv_runOps (ops : List POp) (U R : List String) (hinj : PKeyInj U R)
    (hdom : ∀ op ∈ ops, opInDom U R op) : GovInv (runOps ops) U R := by
  have hgen : ∀ (l : List POp) (s : Presence), (∀ op ∈ l, opInDom U R op) →
      GovInv s U R → GovInv (l.foldl applyOp s) U R := by
    intro l
    induction l with
    | nil => exact fun s _ hs => hs
    | cons op rest ih =>
      intro s hd hs
      refine ih _ (fun o ho => hd o (List.mem_cons_of_mem _ ho)) ?_
      have hop := hd op (List.mem_cons_self _ _)
      cases op with
      | join t r u sk lim => exact govInv_join hinj hop.1 hop.2 t sk lim hs
      | exit t r u sk => exact govInv_leave hinj hop.1 hop.2 t sk hs
      | cleanup t u sk => exact govInv_cleanup hinj hop t sk hs
  exact hgen ops Presence.empty hdom (govInv_empty U R)

/-! ## Claim C5 — join/leave returns the ref-count entry to its prior value -/

/-- C5: in every state reachable by presence operations, a successful
`try_join` followed by `leave` for the same (tenant, room, user, session)
returns the `user_room_refs` entry under the pair's composite key to its
value before the join; an absent entry stays absent, because the entry is
removed when the count reaches 0. -/
theorem join_leave_refcount_roundtrip (ops : List POp) (t r u sk : String)
    (lim : TenantLimits)
    (h : ((runOps ops).try_join t r u sk lim).2 = true) :
    (((runOps ops).try_join t r u sk lim).1.leave t r u sk).user_room_refs (ref_key u r)
      = (runOps ops).user_room_refs (ref_key u r) := by
  have hg : refsGE1 (runOps ops) := refsGE1_runOps ops
  rcases try_join_cases (runOps ops) t r u sk lim with ⟨hf, _, _, _, _⟩ |
    ⟨_, hrefs, _, _⟩
  · rw [h] at hf
    cases hf
  · have hk1 : ((runOps ops).try_join t r u sk lim).1.user_room_refs (ref_key u r)
        = some (((runOps ops).user_room_refs (ref_key u r)).getD 0 + 1) := by
      rw [hrefs]
      simp [upd]
    rcases (leave_cases ((runOps ops).try_join t r u sk lim).1 t r u sk).2 with
      ⟨hnone, _, _, _⟩ | ⟨n, hsome, ⟨hn, hrefs2, _, _⟩ | ⟨hn, hrefs2, _, _⟩⟩
    · rw [hk1] at hnone
      cases hnone
    · rw [hk1] at hsome
      injection hsome with heq
      have h0 : ((runOps ops).user_room_refs (ref_key u r)).getD 0 = 0 := by omega
      rw [hrefs2]
      simp only [upd, if_pos rfl]
      cases ho : (runOps ops).user_room_refs (ref_key u r) with
      | none => rfl
      | some m =>
        have hm := hg _ _ ho
        rw [ho] at h0
        simp only [Option.getD_some] at h0
        omega
    · rw [hk1] at hsome
      injection hsome with heq
      rw [hrefs2]
      simp only [upd, if_pos rfl]
      cases ho : (runOps ops).user_room_refs (ref_key u r) with
      | none =>
        rw [ho] at heq
        simp only [Option.getD_none] at heq
        omega
      | some m =>
        rw [ho] at heq
        simp only [Option.getD_some] at heq
        have hnm : n - 1 = m := by omega
        rw [hnm]
        simp

/-- C5 witness: from the empty registry, a join that succeeds followed by the
matching leave restores the absent ref-count entry. -/
theorem join_leave_refcount_roundtrip_witness :
    ((runOps []).try_join "t" "t::party" "t::dev" "t::dev::1" limitsOff).2 = true
    ∧ (((runOps []).try_join "t" "t::party" "t::dev" "t::dev::1" limitsOff).1.leave
        "t" "t::party" "t::dev" "t::dev::1").user_room_refs (ref_key "t::dev" "t::party")
      = (runOps []).user_room_refs (ref_key "t::dev" "t::party") :=
  ⟨by decide,
   join_leave_refcount_roundtrip [] "t" "t::party" "t::dev" "t::dev::1" limitsOff
     (by decide)⟩

/-! ## Claim C10 — `leave` is total and underflow-free -/

/-- C10: in every reachable presence state, every stored ref-count is at
least 1 — so the `*refs -= 1` in `leave` is applied only to values ≥ 1 and
cannot underflow — and a `leave` for a pair with no ref-count entry performs
no decrement and leaves the three governance structures unchanged. -/
theorem leave_underflow_free :
    (∀ (ops : List POp) (k : String) (n : Nat),
        (runOps ops).user_room_refs k = some n → 1 ≤ n)
    ∧ (∀ (s : Presence) (t r u sk : String),
        s.user_room_refs (ref_key u r) = none →
        (s.leave t r u sk).user_room_refs = s.user_room_refs
        ∧ (s.leave t r u sk).user_to_rooms = s.user_to_rooms
        ∧ (s.leave t r u sk).room_to_users = s.room_to_users) := by
  constructor
  · exact fun ops => refsGE1_runOps ops
  · intro s t r u sk hnone
    rcases (leave_cases s t r u sk).2 with ⟨_, h1, h2, h3⟩ | ⟨n, hsome, _⟩
    · exact ⟨h1, h2, h3⟩
    · rw [hnone] at hsome
      cases hsome

/-- C10 witness: the single-join state carries a ref-count of 1 ≥ 1, and a
`leave` on the empty registry (no entry) leaves governance untouched. -/
theorem leave_underflow_free_witness :
    1 ≤ 1
    ∧ ((Presence.empty.leave "t" "t::r" "t::u" "t::u::1").user_room_refs
        = Presence.empty.user_room_refs
      ∧ (Presence.empty.leave "t" "t::r" "t::u" "t::u::1").user_to_rooms
        = Presence.empty.user_to_rooms
      ∧ (Presence.empty.leave "t" "t::r" "t::u" "t::u::1").room_to_users
        = Presence.empty.room_to_users) :=
  ⟨leave_underflow_free.1 [POp.join "t" "t::r" "t::u" "t::u::1" limitsOff]
      (ref_key "t::u" "t::r") 1 (by decide),
   leave_underflow_free.2 Presence.empty "t" "t::r" "t::u" "t::u::1" rfl⟩

/-! ## Claim C6 — governance iff ref-count (spec I3) -/

/-- C6 counterexample: the composite key `user ++ "::" ++ room` is ambiguous.
A single join by user `"t::a"` into room `"t::b"` stores ref-count 1 under
key `"t::a::t::b"`, which is also the composite key of the pair
(`"t"`, `"a::t::b"`); for that pair the ref-count reads positive while
`user_to_rooms["t"]` does not contain `"a::t::b"`, violating the claimed
iff. -/
theorem refcount_iff_cex :
    0 < ((runOps [POp.join "t" "t::b" "t::a" "s1" limitsOff]).user_room_refs
        (ref_key "t" "a::t::b")).getD 0
    ∧ "a::t::b" ∉ lookupSet
        (runOps [POp.join "t" "t::b" "t::a" "s1" limitsOff]).user_to_rooms "t" := by
  exact ⟨by decide, by decide⟩

/-- C6 amended: the iff holds for all pairs drawn from universes of user and
room keys on which the composite-key encoding is injective (no two pairs
share `u ++ "::" ++ r`), provided every operation in the sequence draws its
user and room keys from those universes: then in every reachable state,
`user_to_rooms[u]` contains `r` iff the `(u, r)` ref-count is positive, and
`room_to_users[r]` contains `u` under the same condition. -/
theorem refcount_iff_amended (ops : List POp) (U R : List String)
    (hinj : PKeyInj U R) (hdom : ∀ op ∈ ops, opInDom U R op)
    (u r : String) (hu : u ∈ U) (hr : r ∈ R) :
    (r ∈ lookupSet (runOps ops).user_to_rooms u
      ↔ 0 < ((runOps ops).user_room_refs (ref_key u r)).getD 0)
    ∧ (u ∈ lookupSet (runOps ops).room_to_users r
      ↔ 0 < ((runOps ops).user_room_refs (ref_key u r)).getD 0) :=
  (govInv_runOps ops U R hinj hdom).govern u hu r hr

/-- C6 amended witness: collision-free universes, one join; both directions
of the iff hold at the joined pair. -/
theorem refcount_iff_amended_witness :
    ("ra" ∈ lookupSet (runOps [POp.join "t" "ra" "ua" "s1" limitsOff]).user_to_rooms "ua"
      ↔ 0 < ((runOps [POp.join "t" "ra" "ua" "s1" limitsOff]).user_room_refs
          (ref_key "ua" "ra")).getD 0)
    ∧ ("ua" ∈ lookupSet (runOps [POp.join "t" "ra" "ua" "s1" limitsOff]).room_to_users "ra"
      ↔ 0 < ((runOps [POp.join "t" "ra" "ua" "s1" limitsOff]).user_room_refs
          (ref_key "ua" "ra")).getD 0) :=
  refcount_iff_amended [POp.join "t" "ra" "ua" "s1" limitsOff] ["ua"] ["ra"]
    (by
      unfold PKeyInj
      intro u hu r hr u' hu' r' hr' he
      rw [List.mem_singleton] at hu hr hu' hr'
      subst hu
      subst hr
      subst hu'
      subst hr'
      exact ⟨rfl, rfl⟩)
    (by
      intro op hop
      rw [List.mem_singleton] at hop
      subst hop
      exact ⟨by decide, by decide⟩)
    "ua" "ra" (by decide) (by decide)

end WsPrism
